import Mathlib

/-!
Shallow embedding of `src/streamlit_app.py` (a job-search tracking tool built
on pandas DataFrames persisted as CSV files), together with proofs about its
data-cleaning, import, export, and row-editing operations.

A pandas DataFrame is modelled as an ordered list of column names plus a list
of rows, each row a list of string cells aligned with the columns.  Missing
values (NaN) entering from spreadsheet reads are modelled by `Option String`
cells in `RawFrame` and are eliminated by `fillna` exactly as the source does.
-/

/-- A pandas DataFrame with string cells: ordered column labels and rows. -/
structure DataFrame where
  cols : List String
  rows : List (List String)
deriving Repr, DecidableEq

/-- A DataFrame is well formed when its column labels are distinct and every
row has exactly one cell per column (which holds for every frame produced by
`pd.read_csv` / `pd.read_excel`). -/
def DataFrame.Wellformed (df : DataFrame) : Prop :=
  df.cols.Nodup ∧ ∀ r ∈ df.rows, r.length = df.cols.length

instance (df : DataFrame) : Decidable df.Wellformed := by
  unfold DataFrame.Wellformed; infer_instance

/-- Cell of row `r` (laid out along `cols`) at the column named `c`;
the empty string when the column is absent. -/
def rowGet (cols : List String) (r : List String) (c : String) : String :=
  r.getD (cols.indexOf c) ""

/-- Schema of the applications table (`load_applications` / `expected_columns`). -/
def applicationsColumns : List String :=
  ["date_applied", "company", "role_title", "job_link", "status",
   "priority", "salary_range", "location", "next_action",
   "follow_up_date", "notes"]

/-- Schema of the companies table (`load_companies` / `expected_columns`). -/
def companiesColumns : List String :=
  ["company", "industry", "size", "tech_stack", "culture_notes",
   "glassdoor_rating", "key_contacts", "open_roles", "applied_status"]

/-- Schema of the networking table (`load_networking` / `expected_columns`). -/
def networkingColumns : List String :=
  ["contact_name", "company", "position", "connection_type",
   "contact_date", "response", "meeting_scheduled",
   "follow_up_action", "notes"]

/-- Schema of the interviews table (`load_interviews` / `expected_columns`). -/
def interviewsColumns : List String :=
  ["company", "interview_date", "interview_type", "interviewer",
   "prep_status", "key_topics", "questions_to_ask", "outcome", "next_steps"]

/-- The `expected_columns` dict of `validate_and_clean_data`: `none` means the
`data_type` key is absent. -/
def expectedColumnsFor (data_type : String) : Option (List String) :=
  if data_type = "applications" then some applicationsColumns
  else if data_type = "companies" then some companiesColumns
  else if data_type = "networking" then some networkingColumns
  else if data_type = "interviews" then some interviewsColumns
  else none

/-- The `date_columns` dict of `validate_and_clean_data` (with `.get(dt, [])`). -/
def dateColumnsFor (data_type : String) : List String :=
  if data_type = "applications" then ["date_applied", "follow_up_date"]
  else if data_type = "networking" then ["contact_date"]
  else []

/-- The character for the decimal digit `k` (with saturation at 9; callers
always pass `n % 10`). -/
def digitChar : Nat → Char
  | 0 => '0'
  | 1 => '1'
  | 2 => '2'
  | 3 => '3'
  | 4 => '4'
  | 5 => '5'
  | 6 => '6'
  | 7 => '7'
  | 8 => '8'
  | _ => '9'

/-- Fixed-width zero-padded decimal rendering of `n`, as `strftime` field
codes `%Y`, `%m`, `%d` produce. -/
def natDigits : Nat → Nat → List Char
  | 0, _ => []
  | k + 1, n => natDigits k (n / 10) ++ [digitChar (n % 10)]

/-- A calendar date as handled by `pd.to_datetime`. -/
structure Date where
  year : Nat
  month : Nat
  day : Nat
deriving Repr, DecidableEq

/-- Rendering of a timestamp by `.dt.strftime('%Y-%m-%d')`. -/
def formatDate (d : Date) : String :=
  String.mk (natDigits 4 d.year ++ '-' :: (natDigits 2 d.month ++ '-' :: natDigits 2 d.day))

/-- Numeric value of a digit character. -/
def digitVal (c : Char) : Nat := c.toNat - 48

/-- Gregorian leap-year test, as in the proleptic calendar pandas uses. -/
def isLeapYear (y : Nat) : Bool :=
  (y % 4 == 0 && y % 100 != 0) || y % 400 == 0

/-- Number of days in month `m` of year `y`. -/
def daysInMonth (y m : Nat) : Nat :=
  if m = 2 then (if isLeapYear y then 29 else 28)
  else if m = 4 ∨ m = 6 ∨ m = 9 ∨ m = 11 then 30
  else 31

/-- Modelled from pandas: `pd.to_datetime(s, errors='coerce')` on a single
cell.  The model recognises ISO `YYYY-MM-DD` dates (also with `/` as the
separator), validates the calendar, and enforces the `datetime64[ns]`
representable year range; every other input coerces to `NaT` (`none`). -/
def parseDate (s : String) : Option Date :=
  match s.data with
  | [y1, y2, y3, y4, s1, m1, m2, s2, d1, d2] =>
    if (s1 = '-' ∧ s2 = '-') ∨ (s1 = '/' ∧ s2 = '/') then
      if y1.isDigit ∧ y2.isDigit ∧ y3.isDigit ∧ y4.isDigit ∧
         m1.isDigit ∧ m2.isDigit ∧ d1.isDigit ∧ d2.isDigit then
        let y := 1000 * digitVal y1 + 100 * digitVal y2 + 10 * digitVal y3 + digitVal y4
        let m := 10 * digitVal m1 + digitVal m2
        let d := 10 * digitVal d1 + digitVal d2
        if 1 ≤ m ∧ m ≤ 12 ∧ 1 ≤ d ∧ d ≤ daysInMonth y m ∧ 1678 ≤ y ∧ y ≤ 2261 then
          some ⟨y, m, d⟩
        else none
      else none
    else none
  | _ => none

/-- The per-cell effect of the date-cleaning lines of `validate_and_clean_data`:
`pd.to_datetime(col, errors='coerce').dt.strftime('%Y-%m-%d')` followed by
`.fillna('')`. -/
def cleanDate (s : String) : String :=
  match parseDate s with
  | none => ""
  | some d => formatDate d

/-- The body of the loop `for col in expected_columns[data_type]: if col not
in df.columns: df[col] = ''` for a single column: pandas appends the new
column at the end, filled with the empty string. -/
def addMissing (df : DataFrame) (c : String) : DataFrame :=
  if c ∈ df.cols then df
  else ⟨df.cols ++ [c], df.rows.map (fun r => r ++ [""])⟩

/-- The whole ensure-columns loop of `validate_and_clean_data`. -/
def ensureCols (df : DataFrame) (cs : List String) : DataFrame :=
  cs.foldl addMissing df

/-- Column selection `df[cs]`: keeps the listed columns in the listed order. -/
def DataFrame.select (df : DataFrame) (cs : List String) : DataFrame :=
  ⟨cs, df.rows.map (fun r => cs.map (rowGet df.cols r))⟩

/-- In-place update of the cell at column `c` by `f`, on one row. -/
def mapColRow (cols : List String) (c : String) (f : String → String)
    (r : List String) : List String :=
  r.set (cols.indexOf c) (f (r.getD (cols.indexOf c) ""))

/-- Column transform `df[c] = f(df[c])`. -/
def DataFrame.mapCol (df : DataFrame) (c : String) (f : String → String) : DataFrame :=
  ⟨df.cols, df.rows.map (mapColRow df.cols c f)⟩

/-- The date-cleaning loop of `validate_and_clean_data`: for every date column
present, map `cleanDate` over its cells. -/
def cleanDates (df : DataFrame) (dcs : List String) : DataFrame :=
  dcs.foldl (fun d c => if c ∈ d.cols then d.mapCol c cleanDate else d) df

/-- `validate_and_clean_data(df, data_type)` of `src/streamlit_app.py`: for an
unknown `data_type` return `df` unchanged; otherwise add the missing expected
columns filled with `''`, select the expected columns in order, and clean the
date columns. -/
def validate_and_clean_data (df : DataFrame) (data_type : String) : DataFrame :=
  match expectedColumnsFor data_type with
  | none => df
  | some expCols => cleanDates ((ensureCols df expCols).select expCols) (dateColumnsFor data_type)

example : validate_and_clean_data ⟨["x"], [["1"]]⟩ "zzz" = ⟨["x"], [["1"]]⟩ := by decide

example :
    (validate_and_clean_data ⟨["company", "extra"], [["Acme", "e"]]⟩ "companies").cols
      = companiesColumns := by decide

example :
    (validate_and_clean_data ⟨["date_applied", "company"], [["2024-03-05", "Acme"], ["nope", "B"]]⟩
        "applications").rows.map (fun r => r.getD 0 "?") = ["2024-03-05", ""] := by decide

/-- The empty applications table built when `applications.csv` is absent. -/
def emptyApplications : DataFrame := ⟨applicationsColumns, []⟩

/-- The empty companies table built when `companies.csv` is absent. -/
def emptyCompanies : DataFrame := ⟨companiesColumns, []⟩

/-- The empty networking table built when `networking.csv` is absent. -/
def emptyNetworking : DataFrame := ⟨networkingColumns, []⟩

/-- The empty interviews table built when `interviews.csv` is absent. -/
def emptyInterviews : DataFrame := ⟨interviewsColumns, []⟩

/-- `load_applications()`: the argument is the parsed contents of
`applications.csv` when the file exists, `none` when it does not. -/
def load_applications (file : Option DataFrame) : DataFrame :=
  match file with
  | some df => df
  | none => emptyApplications

/-- `load_companies()`. -/
def load_companies (file : Option DataFrame) : DataFrame :=
  match file with
  | some df => df
  | none => emptyCompanies

/-- `load_networking()`. -/
def load_networking (file : Option DataFrame) : DataFrame :=
  match file with
  | some df => df
  | none => emptyNetworking

/-- `load_interviews()`. -/
def load_interviews (file : Option DataFrame) : DataFrame :=
  match file with
  | some df => df
  | none => emptyInterviews

/-- `pd.concat([a, b], ignore_index=True)`: columns are aligned by name (the
union, in first-seen order), the rows of `a` come first, then the rows of `b`,
reindexed positionally; a cell under a column its source frame lacks is empty. -/
def pdConcat (a b : DataFrame) : DataFrame :=
  ⟨a.cols ++ b.cols.filter (fun c => !a.cols.contains c),
   a.rows.map (fun r =>
     (a.cols ++ b.cols.filter (fun c => !a.cols.contains c)).map (rowGet a.cols r)) ++
   b.rows.map (fun r =>
     (a.cols ++ b.cols.filter (fun c => !a.cols.contains c)).map (rowGet b.cols r))⟩

/-- The "Append new" / "Append to existing data" import path: the uploaded
frame is cleaned by `validate_and_clean_data`, concatenated after the existing
frame with `ignore_index=True`, and the combination is what gets saved. -/
def appendImport (existing uploaded : DataFrame) (data_type : String) : DataFrame :=
  pdConcat existing (validate_and_clean_data uploaded data_type)

/-- The delete action of `display_data_with_actions`:
`df.drop(idx).reset_index(drop=True)` on a freshly loaded frame, whose index
is positional. -/
def delete_entry (df : DataFrame) (idx : Nat) : DataFrame :=
  ⟨df.cols, df.rows.eraseIdx idx⟩

/-- The fields of the "Add New Application" form, all rendered to strings. -/
structure ApplicationForm where
  date_applied : String
  company : String
  role_title : String
  job_link : String
  status : String
  priority : String
  salary_range : String
  location : String
  next_action : String
  follow_up_date : String
  notes : String
deriving Repr, DecidableEq

/-- The one-row frame `pd.DataFrame({...})` built from the form fields. -/
def applicationRow (f : ApplicationForm) : List String :=
  [f.date_applied, f.company, f.role_title, f.job_link, f.status,
   f.priority, f.salary_range, f.location, f.next_action,
   f.follow_up_date, f.notes]

/-- The submit handler of the `new_application` form: with truthy (non-empty)
`company` and `role_title` the new row is concatenated to the table and saved
(`false` = no error); otherwise nothing is saved and an error is shown
(`true`). The first component is the applications table as stored afterwards. -/
def submit_new_application (df : DataFrame) (f : ApplicationForm) : DataFrame × Bool :=
  if f.company ≠ "" ∧ f.role_title ≠ "" then
    (pdConcat df ⟨applicationsColumns, [applicationRow f]⟩, false)
  else
    (df, true)

/-- `df.empty` in pandas: some axis has length zero. -/
def DataFrame.isEmptyDF (df : DataFrame) : Bool :=
  df.rows.isEmpty || df.cols.isEmpty

/-- `create_excel_download()`: the produced workbook as the ordered list of
(sheet name, frame) pairs written by the four guarded `to_excel` calls. -/
def create_excel_download (apps comps nets ints : DataFrame) :
    List (String × DataFrame) :=
  (if !apps.isEmptyDF then [("Applications", apps)] else []) ++
  (if !comps.isEmptyDF then [("Companies", comps)] else []) ++
  (if !nets.isEmptyDF then [("Networking", nets)] else []) ++
  (if !ints.isEmptyDF then [("Interviews", ints)] else [])

/-- A raw spreadsheet frame as read by `pd.read_excel`: a cell is `none` when
it is NaN (empty in the sheet). -/
structure RawFrame where
  cols : List String
  rows : List (List (Option String))
deriving Repr, DecidableEq

/-- `df.dropna(how='all')`: drop the rows whose every cell is NaN. -/
def dropnaAll (rf : RawFrame) : RawFrame :=
  ⟨rf.cols, rf.rows.filter (fun r => !r.all Option.isNone)⟩

/-- `df.fillna('')`: replace NaN cells with the empty string. -/
def fillna (rf : RawFrame) : DataFrame :=
  ⟨rf.cols, rf.rows.map (List.map (fun cell => cell.getD ""))⟩

/-- One sheet of an uploaded workbook: its tab name, and the result of
`pd.read_excel` on it (`none` when reading or processing that sheet raises). -/
structure Sheet where
  name : String
  read : Option RawFrame
deriving Repr, DecidableEq

/-- Whether the character list `p` occurs contiguously at the start of `s`. -/
def startsWithSeg : List Char → List Char → Bool
  | [], _ => true
  | _ :: _, [] => false
  | p :: ps, c :: cs => p == c && startsWithSeg ps cs

/-- Whether the character list `p` occurs contiguously anywhere in `s`
(the Python `in` operator on strings). -/
def containsSeg (p : List Char) : List Char → Bool
  | [] => startsWithSeg p []
  | c :: cs => startsWithSeg p (c :: cs) || containsSeg p cs

/-- Python `str.lower()`, as the character list of the result. -/
def lowerData (s : String) : List Char :=
  s.data.map Char.toLower

/-- `expected_sheet.lower() in sheet_name.lower()`. -/
def containsCI (needle hay : String) : Bool :=
  containsSeg (lowerData needle) (lowerData hay)

/-- The `sheet_mapping` dict of `process_uploaded_excel`, in insertion order. -/
def sheet_mapping : List (String × String) :=
  [("Applications", "applications"), ("Companies", "companies"),
   ("Networking", "networking"), ("Interviews", "interviews")]

/-- The name-matching loop: first mapping entry whose key is a
case-insensitive substring of the sheet name. -/
def matchSheetName (sheetName : String) : Option String :=
  sheet_mapping.findSome? (fun p => if containsCI p.1 sheetName then some p.2 else none)

/-- The column-inference fallback for unmatched sheet names. -/
def inferTypeFromColumns (cols : List String) : Option String :=
  let lc := cols.map lowerData
  if lc.contains "role_title".data || lc.contains "job_link".data then some "applications"
  else if lc.contains "industry".data || lc.contains "glassdoor_rating".data then some "companies"
  else if lc.contains "contact_name".data || lc.contains "connection_type".data then some "networking"
  else if lc.contains "interview_type".data || lc.contains "interviewer".data then some "interviews"
  else none

/-- The data type a processed sheet is filed under, if any. -/
def classifySheet (sheetName : String) (cols : List String) : Option String :=
  match matchSheetName sheetName with
  | some dt => some dt
  | none => inferTypeFromColumns cols

/-- Python dict assignment `d[k] = v`: replace in place, else append. -/
def dictInsert (d : List (String × DataFrame)) (k : String) (v : DataFrame) :
    List (String × DataFrame) :=
  match d with
  | [] => [(k, v)]
  | (k1, v1) :: rest => if k1 = k then (k, v) :: rest else (k1, v1) :: dictInsert rest k v

/-- Python dict lookup. -/
def dictLookup (d : List (String × DataFrame)) (k : String) : Option DataFrame :=
  match d with
  | [] => none
  | (k1, v1) :: rest => if k1 = k then some v1 else dictLookup rest k

/-- The per-sheet body of the loop in `process_uploaded_excel`: a sheet whose
read raises is skipped (warning, `continue`); otherwise the sheet is cleaned
(`dropna(how='all')`, `fillna('')`), classified, and stored in the dict. -/
def processSheet (acc : List (String × DataFrame)) (sh : Sheet) :
    List (String × DataFrame) :=
  match sh.read with
  | none => acc
  | some rf =>
    let df := fillna (dropnaAll rf)
    match classifySheet sh.name df.cols with
    | some dt => dictInsert acc dt df
    | none => acc

/-- `process_uploaded_excel(uploaded_file)`: the argument is `none` when
opening the workbook itself raises (then the `except` branch returns
`{}, []`), otherwise the workbook's sheets in order.  Returns the data dict
and the list of sheet names. -/
def process_uploaded_excel (wb : Option (List Sheet)) :
    List (String × DataFrame) × List String :=
  match wb with
  | none => ([], [])
  | some sheets => (sheets.foldl processSheet [], sheets.map Sheet.name)

example :
    process_uploaded_excel (some
      [⟨"My Applications", some ⟨["a"], [[some "1"]]⟩⟩,
       ⟨"bad", none⟩,
       ⟨"stuff", some ⟨["interviewer"], [[none], [some "Bob"]]⟩⟩]) =
    ([("applications", ⟨["a"], [["1"]]⟩), ("interviews", ⟨["interviewer"], [["Bob"]]⟩)],
     ["My Applications", "bad", "stuff"]) := by decide

/-- Recogniser for strings of the exact shape `YYYY-MM-DD`. -/
def isDateFormatB (s : String) : Bool :=
  match s.data with
  | [y1, y2, y3, y4, h1, m1, m2, h2, d1, d2] =>
    y1.isDigit && y2.isDigit && y3.isDigit && y4.isDigit &&
    h1 == '-' && h2 == '-' && m1.isDigit && m2.isDigit && d1.isDigit && d2.isDigit
  | _ => false

theorem digitChar_isDigit (k : Nat) : (digitChar k).isDigit = true := by
  unfold digitChar
  split <;> rfl

theorem natDigits_four (n : Nat) :
    natDigits 4 n = [digitChar (n / 10 / 10 / 10 % 10), digitChar (n / 10 / 10 % 10),
      digitChar (n / 10 % 10), digitChar (n % 10)] := rfl

theorem natDigits_two (n : Nat) :
    natDigits 2 n = [digitChar (n / 10 % 10), digitChar (n % 10)] := rfl

theorem isDateFormatB_formatDate (d : Date) : isDateFormatB (formatDate d) = true := by
  simp [formatDate, natDigits_four, natDigits_two, isDateFormatB, digitChar_isDigit]

theorem cleanDate_format (s : String) :
    cleanDate s = "" ∨ isDateFormatB (cleanDate s) = true := by
  unfold cleanDate
  cases h : parseDate s
  · exact Or.inl rfl
  · exact Or.inr (isDateFormatB_formatDate _)

theorem cleanDate_empty : cleanDate "" = "" := rfl

theorem expectedColumnsFor_facts (dt : String) (ec : List String)
    (hec : expectedColumnsFor dt = some ec) :
    ec.Nodup ∧ (dateColumnsFor dt).Nodup ∧ (∀ c ∈ dateColumnsFor dt, c ∈ ec) := by
  unfold expectedColumnsFor at hec
  split_ifs at hec with h1 h2 h3 h4 <;>
    (injection hec with hec; subst hec) <;>
    subst_vars <;> decide

theorem validate_eq_of_some (df : DataFrame) (dt : String) (ec : List String)
    (hec : expectedColumnsFor dt = some ec) :
    validate_and_clean_data df dt =
      cleanDates ((ensureCols df ec).select ec) (dateColumnsFor dt) := by
  unfold validate_and_clean_data
  rw [hec]

/-- Normal form of the ensure-columns loop: for distinct requested columns it
appends exactly the missing ones at the end and pads every row with empties. -/
theorem ensureCols_eq (cs : List String) : ∀ (df : DataFrame), cs.Nodup →
    ensureCols df cs =
      ⟨df.cols ++ cs.filter (fun c => !df.cols.contains c),
       df.rows.map (fun r =>
         r ++ List.replicate (cs.filter (fun c => !df.cols.contains c)).length "")⟩ := by
  induction cs with
  | nil =>
    intro df _
    simp only [ensureCols, List.foldl_nil, List.filter_nil, List.append_nil,
      List.length_nil, List.replicate_zero]
    cases df with
    | mk cols rows => simp
  | cons c rest ih =>
    intro df hnd
    rw [List.nodup_cons] at hnd
    obtain ⟨hcrest, hrest⟩ := hnd
    by_cases hc : c ∈ df.cols
    · have h1 : ensureCols df (c :: rest) = ensureCols df rest := by
        simp [ensureCols, addMissing, hc]
      rw [h1, ih df hrest]
      have h2 : (c :: rest).filter (fun x => !df.cols.contains x) =
          rest.filter (fun x => !df.cols.contains x) := by
        rw [List.filter_cons_of_neg]
        simp [hc]
      rw [h2]
    · have h1 : ensureCols df (c :: rest) =
          ensureCols ⟨df.cols ++ [c], df.rows.map (fun r => r ++ [""])⟩ rest := by
        simp [ensureCols, addMissing, hc]
      rw [h1, ih _ hrest]
      have hfc : ∀ x ∈ rest, (!(df.cols ++ [c]).contains x) = (!df.cols.contains x) := by
        intro x hx
        have hxc : x ≠ c := fun h => hcrest (h ▸ hx)
        simp [hxc]
      rw [List.filter_congr hfc]
      have hcons : (c :: rest).filter (fun x => !df.cols.contains x) =
          c :: rest.filter (fun x => !df.cols.contains x) := by
        rw [List.filter_cons_of_pos]
        simp [hc]
      rw [hcons]
      refine congrArg₂ DataFrame.mk ?_ ?_
      · simp
      · rw [List.map_map]
        refine List.map_congr_left ?_
        intro r _
        simp [List.replicate_succ]

/-- Reading back the `c` cell of a row built by mapping `g` over the columns. -/
theorem rowGet_map_self (cs : List String) (g : String → String) (c : String)
    (hc : c ∈ cs) : rowGet cs (cs.map g) c = g c := by
  unfold rowGet
  have hlt : cs.indexOf c < cs.length := List.indexOf_lt_length.mpr hc
  rw [List.getD_eq_getElem?_getD, List.getElem?_map,
    List.getElem?_eq_getElem hlt, List.getElem_indexOf hlt]
  rfl

/-- Rebuilding a row by reading every column back out gives the row itself. -/
theorem map_rowGet_self (cols : List String) (r : List String)
    (hnd : cols.Nodup) (hl : r.length = cols.length) :
    cols.map (rowGet cols r) = r := by
  refine List.ext_getElem (by simp [hl]) ?_
  intro i h1 h2
  rw [List.getElem_map]
  unfold rowGet
  rw [List.indexOf_getElem hnd]
  exact List.getD_eq_getElem r "" h2

/-- Padding a row for appended columns does not change cells of old columns. -/
theorem rowGet_extend_mem (cols added : List String) (r : List String) (c : String)
    (hc : c ∈ cols) (hl : r.length = cols.length) :
    rowGet (cols ++ added) (r ++ List.replicate added.length "") c = rowGet cols r c := by
  unfold rowGet
  rw [List.indexOf_append_of_mem hc]
  have hlt : cols.indexOf c < r.length := hl ▸ List.indexOf_lt_length.mpr hc
  rw [List.getD_eq_getElem?_getD, List.getD_eq_getElem?_getD,
    List.getElem?_append_left hlt]

/-- A cell under a column appended by the ensure loop is empty. -/
theorem rowGet_extend_new (cols added : List String) (r : List String) (c : String)
    (hc : c ∉ cols) (hl : r.length = cols.length) :
    rowGet (cols ++ added) (r ++ List.replicate added.length "") c = "" := by
  unfold rowGet
  rw [List.indexOf_append_of_not_mem hc]
  rw [List.getD_eq_getElem?_getD]
  rw [List.getElem?_append_right (by omega)]
  have harith : cols.length + added.indexOf c - r.length = added.indexOf c := by omega
  rw [harith, List.getElem?_replicate]
  by_cases hca : c ∈ added
  · rw [if_pos (List.indexOf_lt_length.mpr hca)]
    rfl
  · rw [if_neg]
    · rfl
    · simp [List.indexOf_eq_length.mpr hca]

theorem mapColRow_length (cols : List String) (c : String) (f : String → String)
    (r : List String) : (mapColRow cols c f r).length = r.length := by
  unfold mapColRow
  exact List.length_set r _ _

/-- The cell at the transformed column after `mapColRow`. -/
theorem rowGet_mapColRow_self (cols : List String) (c : String) (f : String → String)
    (r : List String) (hc : c ∈ cols) (hl : r.length = cols.length) :
    rowGet cols (mapColRow cols c f r) c = f (rowGet cols r c) := by
  unfold rowGet mapColRow
  have hlt : cols.indexOf c < r.length := hl ▸ List.indexOf_lt_length.mpr hc
  rw [List.getD_eq_getElem?_getD, List.getElem?_set_self (by simpa using hlt)]
  rfl

/-- Cells at the other columns are untouched by `mapColRow`. -/
theorem rowGet_mapColRow_other (cols : List String) (c c0 : String) (f : String → String)
    (r : List String) (hnd : cols.Nodup) (hne : c ≠ c0) (hl : r.length = cols.length) :
    rowGet cols (mapColRow cols c0 f r) c = rowGet cols r c := by
  unfold rowGet mapColRow
  by_cases hc0 : c0 ∈ cols
  · by_cases hc : c ∈ cols
    · have hne2 : cols.indexOf c0 ≠ cols.indexOf c := fun h =>
        hne (((List.indexOf_inj hc0 hc).mp h).symm)
      simp only [List.getD_eq_getElem?_getD]
      rw [List.getElem?_set_ne hne2]
    · have hge : cols.length ≤ cols.indexOf c := le_of_eq (List.indexOf_eq_length.mpr hc).symm
      simp only [List.getD_eq_getElem?_getD]
      rw [List.getElem?_eq_none (by rw [List.length_set]; omega),
        List.getElem?_eq_none (by omega)]
  · rw [List.set_eq_of_length_le (by rw [hl]; exact le_of_eq (List.indexOf_eq_length.mpr hc0).symm)]

/-- Per-row form of the date-cleaning loop. -/
def cleanRow (cols : List String) (dcs : List String) (r : List String) : List String :=
  dcs.foldl (fun r1 c => if c ∈ cols then mapColRow cols c cleanDate r1 else r1) r

theorem cleanRow_length (cols dcs : List String) (r : List String) :
    (cleanRow cols dcs r).length = r.length := by
  induction dcs generalizing r with
  | nil => rfl
  | cons d rest ih =>
    show (cleanRow cols rest _).length = _
    rw [ih]
    by_cases hd : d ∈ cols
    · simp [hd, mapColRow_length]
    · simp [hd]

/-- The date-cleaning loop is the row-wise map of `cleanRow`. -/
theorem cleanDates_eq (dcs : List String) : ∀ df : DataFrame,
    cleanDates df dcs = ⟨df.cols, df.rows.map (cleanRow df.cols dcs)⟩ := by
  induction dcs with
  | nil =>
    intro df
    have h : cleanRow df.cols [] = fun r => r := rfl
    rw [h, List.map_id']
    rfl
  | cons d rest ih =>
    intro df
    show cleanDates (if d ∈ df.cols then df.mapCol d cleanDate else df) rest = _
    by_cases hd : d ∈ df.cols
    · rw [if_pos hd]
      rw [ih]
      unfold DataFrame.mapCol
      refine congrArg₂ DataFrame.mk rfl ?_
      rw [List.map_map]
      refine List.map_congr_left ?_
      intro r _
      show cleanRow df.cols rest (mapColRow df.cols d cleanDate r) = cleanRow df.cols (d :: rest) r
      simp [cleanRow, hd]
    · rw [if_neg hd, ih]
      refine congrArg₂ DataFrame.mk rfl ?_
      refine List.map_congr_left ?_
      intro r _
      show cleanRow df.cols rest r = cleanRow df.cols (d :: rest) r
      simp [cleanRow, hd]

/-- Cell values after the per-row date cleaning: date columns are cleaned,
all other columns are untouched. -/
theorem rowGet_cleanRow (cols dcs : List String) (r : List String) (c : String)
    (hndc : dcs.Nodup) (hnd : cols.Nodup) (hl : r.length = cols.length) :
    rowGet cols (cleanRow cols dcs r) c =
      if c ∈ dcs ∧ c ∈ cols then cleanDate (rowGet cols r c) else rowGet cols r c := by
  induction dcs generalizing r with
  | nil => simp [cleanRow]
  | cons d rest ih =>
    rw [List.nodup_cons] at hndc
    obtain ⟨hdrest, hrest⟩ := hndc
    show rowGet cols (cleanRow cols rest (if d ∈ cols then mapColRow cols d cleanDate r else r)) c = _
    by_cases hd : d ∈ cols
    · rw [if_pos hd]
      rw [ih _ hrest (by rw [mapColRow_length]; exact hl)]
      by_cases hcd : c = d
      · subst hcd
        have hcrest : c ∉ rest := hdrest
        rw [if_neg (by tauto)]
        rw [rowGet_mapColRow_self cols c cleanDate r hd hl]
        rw [if_pos ⟨List.mem_cons_self c rest, hd⟩]
      · rw [rowGet_mapColRow_other cols c d cleanDate r hnd hcd hl]
        by_cases hcrest : c ∈ rest ∧ c ∈ cols
        · rw [if_pos hcrest, if_pos ⟨List.mem_cons_of_mem d hcrest.1, hcrest.2⟩]
        · rw [if_neg hcrest, if_neg (by
            intro hcc
            rcases hcc with ⟨hc1, hc2⟩
            rcases List.mem_cons.mp hc1 with h | h
            · exact hcd h
            · exact hcrest ⟨h, hc2⟩)]
    · rw [if_neg hd]
      rw [ih r hrest hl]
      by_cases hcd : c = d
      · subst hcd
        rw [if_neg (fun h => hd h.2), if_neg (fun h => hd h.2)]
      · by_cases hcrest : c ∈ rest ∧ c ∈ cols
        · rw [if_pos hcrest, if_pos ⟨List.mem_cons_of_mem d hcrest.1, hcrest.2⟩]
        · rw [if_neg hcrest, if_neg (by
            intro hcc
            rcases hcc with ⟨hc1, hc2⟩
            rcases List.mem_cons.mp hc1 with h | h
            · exact hcd h
            · exact hcrest ⟨h, hc2⟩)]

/-- Structure of the reshaping-and-cleaning pipeline of
`validate_and_clean_data` for a known data type with expected columns `ec`
and date columns `dcs`: the output columns are exactly `ec`, the row count is
preserved, rows are rectangular, columns absent from the input are filled
with the empty string, and date-column cells are empty or `YYYY-MM-DD`. -/
theorem validate_core (df : DataFrame) (ec dcs : List String)
    (hnd : ec.Nodup) (hndc : dcs.Nodup) (hw : df.Wellformed) :
    ((cleanDates ((ensureCols df ec).select ec) dcs).cols = ec) ∧
    ((cleanDates ((ensureCols df ec).select ec) dcs).rows.length = df.rows.length) ∧
    (∀ r ∈ (cleanDates ((ensureCols df ec).select ec) dcs).rows, r.length = ec.length) ∧
    (∀ c ∈ ec, c ∉ df.cols →
      ∀ r ∈ (cleanDates ((ensureCols df ec).select ec) dcs).rows, rowGet ec r c = "") ∧
    (∀ c ∈ dcs, c ∈ ec →
      ∀ r ∈ (cleanDates ((ensureCols df ec).select ec) dcs).rows,
        rowGet ec r c = "" ∨ isDateFormatB (rowGet ec r c) = true) := by
  obtain ⟨hwnd, hwlen⟩ := hw
  have hcols : (cleanDates ((ensureCols df ec).select ec) dcs).cols = ec := by
    rw [cleanDates_eq]
    rfl
  have hrows : (cleanDates ((ensureCols df ec).select ec) dcs).rows =
      df.rows.map (fun r0 =>
        cleanRow ec dcs (ec.map (rowGet
          (df.cols ++ ec.filter (fun c => !df.cols.contains c))
          (r0 ++ List.replicate (ec.filter (fun c => !df.cols.contains c)).length "")))) := by
    rw [ensureCols_eq ec df hnd, cleanDates_eq]
    simp only [DataFrame.select, List.map_map]
    rfl
  refine ⟨hcols, ?_, ?_, ?_, ?_⟩
  · rw [hrows, List.length_map]
  · intro r hr
    rw [hrows] at hr
    obtain ⟨r0, _, rfl⟩ := List.mem_map.mp hr
    rw [cleanRow_length, List.length_map]
  · intro c hc hcdf r hr
    rw [hrows] at hr
    obtain ⟨r0, hr0, rfl⟩ := List.mem_map.mp hr
    rw [rowGet_cleanRow ec dcs _ c hndc hnd (by rw [List.length_map])]
    rw [rowGet_map_self _ _ _ hc]
    rw [rowGet_extend_new df.cols _ r0 c hcdf (hwlen r0 hr0)]
    rw [cleanDate_empty]
    split <;> rfl
  · intro c hc hcec r hr
    rw [hrows] at hr
    obtain ⟨r0, hr0, rfl⟩ := List.mem_map.mp hr
    rw [rowGet_cleanRow ec dcs _ c hndc hnd (by rw [List.length_map])]
    rw [if_pos ⟨hc, hcec⟩]
    exact cleanDate_format _

theorem validate_cols_of_some (df : DataFrame) (dt : String) (ec : List String)
    (hec : expectedColumnsFor dt = some ec) :
    (validate_and_clean_data df dt).cols = ec := by
  rw [validate_eq_of_some df dt ec hec, cleanDates_eq]
  rfl

theorem validate_row_lengths (df : DataFrame) (dt : String) (ec : List String)
    (hec : expectedColumnsFor dt = some ec) :
    ∀ r ∈ (validate_and_clean_data df dt).rows, r.length = ec.length := by
  rw [validate_eq_of_some df dt ec hec, cleanDates_eq]
  intro r hr
  obtain ⟨r2, hr2, rfl⟩ := List.mem_map.mp hr
  rw [cleanRow_length]
  obtain ⟨r1, _, rfl⟩ := List.mem_map.mp hr2
  rw [List.length_map]

/-- Concatenating two frames over the same columns is the plain row append. -/
theorem pdConcat_same_cols (a b : DataFrame) (hab : b.cols = a.cols)
    (hnd : a.cols.Nodup)
    (hla : ∀ r ∈ a.rows, r.length = a.cols.length)
    (hlb : ∀ r ∈ b.rows, r.length = a.cols.length) :
    pdConcat a b = ⟨a.cols, a.rows ++ b.rows⟩ := by
  have hfilter : b.cols.filter (fun c => !a.cols.contains c) = [] := by
    rw [hab]
    refine List.filter_eq_nil_iff.mpr ?_
    intro c hc
    simp [hc]
  unfold pdConcat
  rw [hfilter, List.append_nil]
  refine congrArg₂ DataFrame.mk rfl (congrArg₂ (· ++ ·) ?_ ?_)
  · calc a.rows.map (fun r => a.cols.map (rowGet a.cols r))
        = a.rows.map id := List.map_congr_left fun r hr => map_rowGet_self _ r hnd (hla r hr)
      _ = a.rows := List.map_id _
  · rw [hab]
    calc b.rows.map (fun r => a.cols.map (rowGet a.cols r))
        = b.rows.map id := List.map_congr_left fun r hr => map_rowGet_self _ r hnd (hlb r hr)
      _ = b.rows := List.map_id _

/-- C10: `validate_and_clean_data` is the identity on its first argument for
every `data_type` outside the four known ones: the table comes back with no
columns added, dropped, reordered, or cleaned. -/
theorem validate_unknown_type (df : DataFrame) (dt : String)
    (h : dt ∉ ["applications", "companies", "networking", "interviews"]) :
    validate_and_clean_data df dt = df := by
  simp only [List.mem_cons, List.not_mem_nil, or_false, not_or] at h
  obtain ⟨h1, h2, h3, h4⟩ := h
  unfold validate_and_clean_data expectedColumnsFor
  simp [h1, h2, h3, h4]

theorem validate_unknown_type_witness :
    validate_and_clean_data ⟨["x", "company"], [["1", "Acme"]]⟩ "Applications"
      = ⟨["x", "company"], [["1", "Acme"]]⟩ :=
  validate_unknown_type ⟨["x", "company"], [["1", "Acme"]]⟩ "Applications" (by decide)

/-- C5: each load function returns the parsed CSV contents when the file
exists, and otherwise an empty table whose columns are exactly the schema of
that record type (11 columns for applications, 9 each for companies,
networking and interviews). -/
theorem load_functions_spec :
    (∀ df : DataFrame, load_applications (some df) = df ∧ load_companies (some df) = df ∧
      load_networking (some df) = df ∧ load_interviews (some df) = df) ∧
    load_applications none = ⟨applicationsColumns, []⟩ ∧
    load_companies none = ⟨companiesColumns, []⟩ ∧
    load_networking none = ⟨networkingColumns, []⟩ ∧
    load_interviews none = ⟨interviewsColumns, []⟩ ∧
    applicationsColumns.length = 11 ∧ companiesColumns.length = 9 ∧
    networkingColumns.length = 9 ∧ interviewsColumns.length = 9 :=
  ⟨fun _ => ⟨rfl, rfl, rfl, rfl⟩, rfl, rfl, rfl, rfl, by decide, by decide, by decide, by decide⟩

/-- C1: for a known data type, `validate_and_clean_data` returns a table
whose columns are exactly the expected schema in its order, with the row
count preserved; an expected column absent from the input is filled with the
empty string in every row, and a column outside the schema does not survive. -/
theorem validate_and_clean_data_schema (df : DataFrame) (dt : String) (ec : List String)
    (hec : expectedColumnsFor dt = some ec) (hw : df.Wellformed) :
    ((validate_and_clean_data df dt).cols = ec) ∧
    ((validate_and_clean_data df dt).rows.length = df.rows.length) ∧
    (∀ c ∈ ec, c ∉ df.cols →
      ∀ r ∈ (validate_and_clean_data df dt).rows, rowGet ec r c = "") ∧
    (∀ c, c ∉ ec → c ∉ (validate_and_clean_data df dt).cols) := by
  obtain ⟨hnd, hndc, _⟩ := expectedColumnsFor_facts dt ec hec
  rw [validate_eq_of_some df dt ec hec]
  obtain ⟨h1, h2, _, h4, _⟩ := validate_core df ec (dateColumnsFor dt) hnd hndc hw
  exact ⟨h1, h2, h4, fun c hc hmem => hc (h1 ▸ hmem)⟩

theorem validate_and_clean_data_schema_witness :
    ((validate_and_clean_data ⟨["company", "extra"], [["Acme", "e"]]⟩ "companies").cols
      = companiesColumns) ∧
    ((validate_and_clean_data ⟨["company", "extra"], [["Acme", "e"]]⟩ "companies").rows.length
      = (DataFrame.mk ["company", "extra"] [["Acme", "e"]]).rows.length) ∧
    (∀ c ∈ companiesColumns, c ∉ (DataFrame.mk ["company", "extra"] [["Acme", "e"]]).cols →
      ∀ r ∈ (validate_and_clean_data ⟨["company", "extra"], [["Acme", "e"]]⟩ "companies").rows,
        rowGet companiesColumns r c = "") ∧
    (∀ c, c ∉ companiesColumns →
      c ∉ (validate_and_clean_data ⟨["company", "extra"], [["Acme", "e"]]⟩ "companies").cols) :=
  validate_and_clean_data_schema ⟨["company", "extra"], [["Acme", "e"]]⟩ "companies"
    companiesColumns (by decide) (by decide)

/-- C3: after cleaning, every cell in the date columns of the applications
type (`date_applied`, `follow_up_date`) and of the networking type
(`contact_date`) is the empty string or a `YYYY-MM-DD` string, an unparseable
value having become empty via `cleanDate`; for the companies and interviews
types no date cleaning is applied at all — the result is exactly the
reshaping step. -/
theorem validate_date_columns_format :
    (∀ df : DataFrame, df.Wellformed →
      ∀ c ∈ dateColumnsFor "applications",
        ∀ r ∈ (validate_and_clean_data df "applications").rows,
          rowGet applicationsColumns r c = "" ∨
            isDateFormatB (rowGet applicationsColumns r c) = true) ∧
    (∀ df : DataFrame, df.Wellformed →
      ∀ c ∈ dateColumnsFor "networking",
        ∀ r ∈ (validate_and_clean_data df "networking").rows,
          rowGet networkingColumns r c = "" ∨
            isDateFormatB (rowGet networkingColumns r c) = true) ∧
    (∀ df : DataFrame, validate_and_clean_data df "companies"
        = (ensureCols df companiesColumns).select companiesColumns) ∧
    (∀ df : DataFrame, validate_and_clean_data df "interviews"
        = (ensureCols df interviewsColumns).select interviewsColumns) := by
  refine ⟨?_, ?_, ?_, ?_⟩
  · intro df hw c hc r hr
    have hec : expectedColumnsFor "applications" = some applicationsColumns := by decide
    obtain ⟨hnd, hndc, hsub⟩ := expectedColumnsFor_facts _ _ hec
    rw [validate_eq_of_some df _ _ hec] at hr
    obtain ⟨_, _, _, _, h5⟩ :=
      validate_core df applicationsColumns (dateColumnsFor "applications") hnd hndc hw
    exact h5 c hc (hsub c hc) r hr
  · intro df hw c hc r hr
    have hec : expectedColumnsFor "networking" = some networkingColumns := by decide
    obtain ⟨hnd, hndc, hsub⟩ := expectedColumnsFor_facts _ _ hec
    rw [validate_eq_of_some df _ _ hec] at hr
    obtain ⟨_, _, _, _, h5⟩ :=
      validate_core df networkingColumns (dateColumnsFor "networking") hnd hndc hw
    exact h5 c hc (hsub c hc) r hr
  · intro df
    rw [validate_eq_of_some df "companies" companiesColumns (by decide)]
    rfl
  · intro df
    rw [validate_eq_of_some df "interviews" interviewsColumns (by decide)]
    rfl

theorem validate_date_columns_format_witness :
    rowGet applicationsColumns
      ["2024-03-05", "", "", "", "", "", "", "", "", "", ""] "date_applied" = "" ∨
    isDateFormatB (rowGet applicationsColumns
      ["2024-03-05", "", "", "", "", "", "", "", "", "", ""] "date_applied") = true :=
  validate_date_columns_format.1 ⟨["date_applied"], [["2024-03-05"]]⟩ (by decide)
    "date_applied" (by decide)
    ["2024-03-05", "", "", "", "", "", "", "", "", "", ""] (by decide)

/-- C2: the append import mode saves the concatenation of the existing table
and the cleaned upload: the row count is the sum, the uploaded rows follow
the existing rows in order, and no deduplication happens — the multiplicity
of any row in the saved table is the sum of its multiplicities on both sides,
so a row identical to an existing one is still appended. -/
theorem append_import_spec (existing uploaded : DataFrame) (dt : String) (ec : List String)
    (hec : expectedColumnsFor dt = some ec)
    (hcols : existing.cols = ec) (hw : existing.Wellformed) :
    ((appendImport existing uploaded dt).rows =
      existing.rows ++ (validate_and_clean_data uploaded dt).rows) ∧
    ((appendImport existing uploaded dt).rows.length =
      existing.rows.length + (validate_and_clean_data uploaded dt).rows.length) ∧
    (∀ r : List String, (appendImport existing uploaded dt).rows.count r =
      existing.rows.count r + (validate_and_clean_data uploaded dt).rows.count r) := by
  obtain ⟨hwnd, hwlen⟩ := hw
  have hc1 : (validate_and_clean_data uploaded dt).cols = existing.cols :=
    (validate_cols_of_some uploaded dt ec hec).trans hcols.symm
  have hlb : ∀ r ∈ (validate_and_clean_data uploaded dt).rows, r.length = existing.cols.length := by
    intro r hr
    rw [validate_row_lengths uploaded dt ec hec r hr, hcols]
  have hconcat : pdConcat existing (validate_and_clean_data uploaded dt) =
      ⟨existing.cols, existing.rows ++ (validate_and_clean_data uploaded dt).rows⟩ :=
    pdConcat_same_cols existing _ hc1 hwnd hwlen hlb
  have hrows : (appendImport existing uploaded dt).rows =
      existing.rows ++ (validate_and_clean_data uploaded dt).rows := by
    unfold appendImport
    rw [hconcat]
  refine ⟨hrows, ?_, ?_⟩
  · rw [hrows, List.length_append]
  · intro r
    rw [hrows, List.count_append]

theorem append_import_spec_witness :
    ((appendImport ⟨interviewsColumns, [["Acme", "d", "t", "i", "p", "k", "q", "o", "n"]]⟩
        ⟨interviewsColumns, [["Acme", "d", "t", "i", "p", "k", "q", "o", "n"]]⟩
        "interviews").rows =
      (DataFrame.mk interviewsColumns [["Acme", "d", "t", "i", "p", "k", "q", "o", "n"]]).rows ++
      (validate_and_clean_data
        ⟨interviewsColumns, [["Acme", "d", "t", "i", "p", "k", "q", "o", "n"]]⟩
        "interviews").rows) ∧
    ((appendImport ⟨interviewsColumns, [["Acme", "d", "t", "i", "p", "k", "q", "o", "n"]]⟩
        ⟨interviewsColumns, [["Acme", "d", "t", "i", "p", "k", "q", "o", "n"]]⟩
        "interviews").rows.length =
      (DataFrame.mk interviewsColumns [["Acme", "d", "t", "i", "p", "k", "q", "o", "n"]]).rows.length +
      (validate_and_clean_data
        ⟨interviewsColumns, [["Acme", "d", "t", "i", "p", "k", "q", "o", "n"]]⟩
        "interviews").rows.length) ∧
    (∀ r : List String,
      (appendImport ⟨interviewsColumns, [["Acme", "d", "t", "i", "p", "k", "q", "o", "n"]]⟩
        ⟨interviewsColumns, [["Acme", "d", "t", "i", "p", "k", "q", "o", "n"]]⟩
        "interviews").rows.count r =
      (DataFrame.mk interviewsColumns [["Acme", "d", "t", "i", "p", "k", "q", "o", "n"]]).rows.count r +
      (validate_and_clean_data
        ⟨interviewsColumns, [["Acme", "d", "t", "i", "p", "k", "q", "o", "n"]]⟩
        "interviews").rows.count r) :=
  append_import_spec
    ⟨interviewsColumns, [["Acme", "d", "t", "i", "p", "k", "q", "o", "n"]]⟩
    ⟨interviewsColumns, [["Acme", "d", "t", "i", "p", "k", "q", "o", "n"]]⟩
    "interviews" interviewsColumns (by decide) (by decide) (by decide)

/-- C6: deleting row `idx` of a non-empty table keeps the columns, removes
exactly that row, decreases the row count by one, leaves every earlier row at
its index and shifts every later row down by one (the positional reindexing
of `reset_index(drop=True)`). -/
theorem delete_entry_spec (df : DataFrame) (idx : Nat) (h : idx < df.rows.length) :
    ((delete_entry df idx).cols = df.cols) ∧
    ((delete_entry df idx).rows = df.rows.take idx ++ df.rows.drop (idx + 1)) ∧
    ((delete_entry df idx).rows.length = df.rows.length - 1) ∧
    (∀ j, j < idx → (delete_entry df idx).rows.getD j [] = df.rows.getD j []) ∧
    (∀ j, idx ≤ j → (delete_entry df idx).rows.getD j [] = df.rows.getD (j + 1) []) := by
  have htake : (df.rows.take idx).length = idx := by
    rw [List.length_take]
    omega
  have herase : (delete_entry df idx).rows = df.rows.take idx ++ df.rows.drop (idx + 1) :=
    List.eraseIdx_eq_take_drop_succ df.rows idx
  refine ⟨rfl, herase, ?_, ?_, ?_⟩
  · show (df.rows.eraseIdx idx).length = _
    rw [List.length_eraseIdx]
    simp [h]
  · intro j hj
    rw [herase]
    simp only [List.getD_eq_getElem?_getD]
    rw [List.getElem?_append_left (by omega), List.getElem?_take]
    simp [hj]
  · intro j hj
    rw [herase]
    simp only [List.getD_eq_getElem?_getD]
    rw [List.getElem?_append_right (by omega), List.getElem?_drop, htake]
    congr 2
    omega

theorem delete_entry_spec_witness :
    ((delete_entry ⟨["a"], [["r0"], ["r1"], ["r2"]]⟩ 1).cols =
      (DataFrame.mk ["a"] [["r0"], ["r1"], ["r2"]]).cols) ∧
    ((delete_entry ⟨["a"], [["r0"], ["r1"], ["r2"]]⟩ 1).rows =
      (DataFrame.mk ["a"] [["r0"], ["r1"], ["r2"]]).rows.take 1 ++
      (DataFrame.mk ["a"] [["r0"], ["r1"], ["r2"]]).rows.drop 2) ∧
    ((delete_entry ⟨["a"], [["r0"], ["r1"], ["r2"]]⟩ 1).rows.length =
      (DataFrame.mk ["a"] [["r0"], ["r1"], ["r2"]]).rows.length - 1) ∧
    (∀ j, j < 1 → (delete_entry ⟨["a"], [["r0"], ["r1"], ["r2"]]⟩ 1).rows.getD j [] =
      (DataFrame.mk ["a"] [["r0"], ["r1"], ["r2"]]).rows.getD j []) ∧
    (∀ j, 1 ≤ j → (delete_entry ⟨["a"], [["r0"], ["r1"], ["r2"]]⟩ 1).rows.getD j [] =
      (DataFrame.mk ["a"] [["r0"], ["r1"], ["r2"]]).rows.getD (j + 1) []) :=
  delete_entry_spec ⟨["a"], [["r0"], ["r1"], ["r2"]]⟩ 1 (by decide)

/-- C7: the Add New Application form appends exactly one row with the entered
field values at the end of the applications table and saves it if and only if
both `company` and `role_title` are non-empty; with either empty the table is
left unchanged and the error flag is raised. -/
theorem submit_new_application_spec (df : DataFrame) (f : ApplicationForm)
    (hcols : df.cols = applicationsColumns) (hw : df.Wellformed) :
    (f.company ≠ "" ∧ f.role_title ≠ "" →
      submit_new_application df f =
        (⟨df.cols, df.rows ++ [applicationRow f]⟩, false)) ∧
    ((f.company = "" ∨ f.role_title = "") →
      submit_new_application df f = (df, true)) := by
  obtain ⟨hwnd, hwlen⟩ := hw
  constructor
  · intro hcond
    unfold submit_new_application
    rw [if_pos hcond]
    refine congrArg₂ Prod.mk ?_ rfl
    refine pdConcat_same_cols df ⟨applicationsColumns, [applicationRow f]⟩ hcols.symm hwnd hwlen ?_
    intro r hr
    rw [List.mem_singleton] at hr
    subst hr
    rw [hcols]
    rfl
  · intro hcond
    unfold submit_new_application
    rw [if_neg (by tauto)]

theorem submit_new_application_spec_witness :
    submit_new_application ⟨applicationsColumns, []⟩
      ⟨"2025-08-20", "Acme", "Data Analyst", "", "Applied", "High", "", "", "", "", ""⟩ =
    (⟨applicationsColumns,
      [["2025-08-20", "Acme", "Data Analyst", "", "Applied", "High", "", "", "", "", ""]]⟩,
     false) :=
  (submit_new_application_spec ⟨applicationsColumns, []⟩
      ⟨"2025-08-20", "Acme", "Data Analyst", "", "Applied", "High", "", "", "", "", ""⟩
      (by decide) (by decide)).1 (by decide)

/-- C4: `process_uploaded_excel` is a total function in the model (no
exception escapes): a failed workbook read yields the empty dict and the
empty sheet-name list, and a sheet whose processing fails contributes
nothing while the remaining sheets are processed exactly as if the failing
sheet were absent; every sheet name is still reported. -/
theorem process_uploaded_excel_error_handling (pre post : List Sheet) (sh : Sheet)
    (h : sh.read = none) :
    (process_uploaded_excel none = ([], [])) ∧
    ((process_uploaded_excel (some (pre ++ sh :: post))).1 =
      (process_uploaded_excel (some (pre ++ post))).1) ∧
    ((process_uploaded_excel (some (pre ++ sh :: post))).2 =
      (pre ++ sh :: post).map Sheet.name) := by
  refine ⟨rfl, ?_, rfl⟩
  show (pre ++ sh :: post).foldl processSheet [] = (pre ++ post).foldl processSheet []
  rw [List.foldl_append, List.foldl_append, List.foldl_cons]
  congr 1
  simp [processSheet, h]

theorem process_uploaded_excel_error_handling_witness :
    (process_uploaded_excel none = ([], [])) ∧
    ((process_uploaded_excel (some
      [⟨"Applications", some ⟨["company"], [[some "Acme"]]⟩⟩, ⟨"broken", none⟩])).1 =
      (process_uploaded_excel (some
        [⟨"Applications", some ⟨["company"], [[some "Acme"]]⟩⟩])).1) ∧
    ((process_uploaded_excel (some
      [⟨"Applications", some ⟨["company"], [[some "Acme"]]⟩⟩, ⟨"broken", none⟩])).2 =
      ([(⟨"Applications", some ⟨["company"], [[some "Acme"]]⟩⟩ : Sheet), ⟨"broken", none⟩]).map
        Sheet.name) :=
  process_uploaded_excel_error_handling
    [⟨"Applications", some ⟨["company"], [[some "Acme"]]⟩⟩] [] ⟨"broken", none⟩ rfl

theorem dictLookup_dictInsert (d : List (String × DataFrame)) (k : String) (v : DataFrame) :
    dictLookup (dictInsert d k v) k = some v := by
  induction d with
  | nil => simp [dictInsert, dictLookup]
  | cons p rest ih =>
    obtain ⟨k1, v1⟩ := p
    by_cases hk : k1 = k
    · simp [dictInsert, dictLookup, hk]
    · simp [dictInsert, dictLookup, hk, ih]

theorem dictLookup_dictInsert_ne (d : List (String × DataFrame)) (k k1 : String)
    (v : DataFrame) (hne : k ≠ k1) :
    dictLookup (dictInsert d k v) k1 = dictLookup d k1 := by
  induction d with
  | nil => simp [dictInsert, dictLookup, hne]
  | cons p rest ih =>
    obtain ⟨k2, v2⟩ := p
    by_cases hk : k2 = k
    · subst hk
      simp [dictInsert, dictLookup, hne]
    · by_cases hk1 : k2 = k1 <;> simp [dictInsert, dictLookup, hk, hk1, Ne.symm hne, ih]

/-- Folding further sheets none of which successfully classifies to `dt`
leaves the dict entry for `dt` untouched. -/
theorem dictLookup_foldl_preserved (post : List Sheet) (dt : String) :
    ∀ acc : List (String × DataFrame),
    (∀ sh2 ∈ post, ∀ rf2, sh2.read = some rf2 →
        classifySheet sh2.name (fillna (dropnaAll rf2)).cols ≠ some dt) →
    dictLookup (post.foldl processSheet acc) dt = dictLookup acc dt := by
  induction post with
  | nil => intro acc _; rfl
  | cons sh2 rest ih =>
    intro acc h
    rw [List.foldl_cons, ih _ (fun s hs => h s (List.mem_cons_of_mem _ hs))]
    unfold processSheet
    cases hread : sh2.read with
    | none => rfl
    | some rf2 =>
      simp only
      cases hcl : classifySheet sh2.name (fillna (dropnaAll rf2)).cols with
      | none => rfl
      | some dt2 =>
        have hne : dt2 ≠ dt := fun hEq =>
          h sh2 (List.mem_cons_self _ _) rf2 hread (hEq ▸ hcl)
        exact dictLookup_dictInsert_ne acc dt2 dt _ hne

/-- C9: sheets are folded over in workbook order into a dict keyed by data
type with overwriting assignment, so for any workbook in which `sh` is the
last sheet that successfully classifies to `dt` (earlier sheets arbitrary —
including other sheets of type `dt`, whose data is thereby overwritten —
later sheets of other types or failing reads arbitrary), the entry finally
stored for `dt` is the cleaned data of `sh`. -/
theorem process_uploaded_excel_last_wins (pre post : List Sheet) (sh : Sheet)
    (rf : RawFrame) (dt : String)
    (h1 : sh.read = some rf)
    (h2 : classifySheet sh.name (fillna (dropnaAll rf)).cols = some dt)
    (h3 : ∀ sh2 ∈ post, ∀ rf2, sh2.read = some rf2 →
        classifySheet sh2.name (fillna (dropnaAll rf2)).cols ≠ some dt) :
    dictLookup (process_uploaded_excel (some (pre ++ sh :: post))).1 dt =
      some (fillna (dropnaAll rf)) := by
  show dictLookup ((pre ++ sh :: post).foldl processSheet []) dt = _
  rw [List.foldl_append, List.foldl_cons]
  rw [dictLookup_foldl_preserved post dt _ h3]
  have hstep : processSheet (pre.foldl processSheet []) sh =
      dictInsert (pre.foldl processSheet []) dt (fillna (dropnaAll rf)) := by
    unfold processSheet
    rw [h1]
    simp only
    rw [h2]
  rw [hstep]
  exact dictLookup_dictInsert _ _ _

theorem process_uploaded_excel_last_wins_witness :
    dictLookup (process_uploaded_excel (some
      [⟨"Applications", some ⟨["role_title"], [[some "Analyst"]]⟩⟩,
       ⟨"More applications here", some ⟨["role_title"], [[some "Engineer"]]⟩⟩,
       ⟨"Companies", some ⟨["industry"], [[some "Fintech"]]⟩⟩])).1
      "applications" =
    some (fillna (dropnaAll ⟨["role_title"], [[some "Engineer"]]⟩)) :=
  process_uploaded_excel_last_wins
    [⟨"Applications", some ⟨["role_title"], [[some "Analyst"]]⟩⟩]
    [⟨"Companies", some ⟨["industry"], [[some "Fintech"]]⟩⟩]
    ⟨"More applications here", some ⟨["role_title"], [[some "Engineer"]]⟩⟩
    ⟨["role_title"], [[some "Engineer"]]⟩ "applications" rfl (by decide)
    (by
      intro sh2 hs rf2 hr hcl
      rw [List.mem_singleton] at hs
      subst hs
      injection hr with hr
      subst hr
      exact absurd hcl (by decide))

/-- C8: `create_excel_download` writes a worksheet for a dataset exactly when
that dataset's table is non-empty, and with all four tables empty the
workbook holds no data sheet at all. -/
theorem create_excel_download_spec (apps comps nets ints : DataFrame) :
    (("Applications" ∈ (create_excel_download apps comps nets ints).map Prod.fst) ↔
      apps.isEmptyDF = false) ∧
    (("Companies" ∈ (create_excel_download apps comps nets ints).map Prod.fst) ↔
      comps.isEmptyDF = false) ∧
    (("Networking" ∈ (create_excel_download apps comps nets ints).map Prod.fst) ↔
      nets.isEmptyDF = false) ∧
    (("Interviews" ∈ (create_excel_download apps comps nets ints).map Prod.fst) ↔
      ints.isEmptyDF = false) ∧
    (apps.isEmptyDF = true → comps.isEmptyDF = true → nets.isEmptyDF = true →
      ints.isEmptyDF = true → create_excel_download apps comps nets ints = []) := by
  cases h1 : apps.isEmptyDF <;> cases h2 : comps.isEmptyDF <;>
    cases h3 : nets.isEmptyDF <;> cases h4 : ints.isEmptyDF <;>
    simp [create_excel_download, h1, h2, h3, h4]

theorem create_excel_download_spec_witness :
    create_excel_download emptyApplications emptyCompanies emptyNetworking emptyInterviews = [] :=
  (create_excel_download_spec emptyApplications emptyCompanies emptyNetworking
    emptyInterviews).2.2.2.2 (by decide) (by decide) (by decide) (by decide)
